import Mathlib

/-!
Verification of the value-to-style derivation engine of gsheet-colour-by-value

This file gives a shallow embedding, in Lean 4, of the styling core of the
repository `gsheet-colour-by-value`:

* `src/colour-by-value.js` — the discrete pipeline: `getColorFromValue`,
  `getContrastColor`, `getRandomFormatting`, and the menu actions
  `randomColour` / `randomFormat` that apply them to the selected cells;
* the utility collection (`generateColourFromValue` and its callers
  `colourCellByValueRandom`, `colourRangeByValueRandom`, `colourCellRandom`)
  — the continuous HSL pipeline built on a 32-bit rolling hash.

The host digest API `Utilities.computeDigest(Utilities.DigestAlgorithm.MD5, s)`
is embedded as a full executable MD5 implementation over `Nat` byte lists
(unsigned bytes; the source only ever masks digest bytes with `& 0x1F`,
`& 0x0F` and `& 0xFF`, for which signed and unsigned bytes agree on the
result).  JavaScript 32-bit signed wrap-around (`ToInt32`) is embedded as
explicit modular arithmetic on `Int`.
-/

/-! ## JavaScript 32-bit integer semantics -/

/-- JavaScript `ToInt32`: wrap an integer to the signed 32-bit range
`[-2^31, 2^31)`.  This is what `x & x` and `x << 5` perform on their
(already numeric) operands. -/
def toInt32 (x : Int) : Int := (x + 2147483648) % 4294967296 - 2147483648

theorem toInt32_emod (x : Int) : toInt32 x % 4294967296 = x % 4294967296 := by
  unfold toInt32; omega

theorem toInt32_congr {x y : Int} (h : x % 4294967296 = y % 4294967296) :
    toInt32 x = toInt32 y := by
  unfold toInt32; omega

/-! ## String encodings

`Utilities.computeDigest` hashes the UTF-8 bytes of the string;
`String.prototype.charCodeAt` yields UTF-16 code units. -/

/-- UTF-8 encoding of a single Unicode code point. -/
def utf8Bytes (c : Nat) : List Nat :=
  if c < 128 then [c]
  else if c < 2048 then [192 + c / 64, 128 + c % 64]
  else if c < 65536 then [224 + c / 4096, 128 + c / 64 % 64, 128 + c % 64]
  else [240 + c / 262144, 128 + c / 4096 % 64, 128 + c / 64 % 64, 128 + c % 64]

/-- The UTF-8 byte sequence of a string (hash input of the MD5 pipeline). -/
def strBytes (s : String) : List Nat :=
  (s.data.map (fun ch => utf8Bytes ch.toNat)).flatten

/-- UTF-16 code units of a single Unicode code point (surrogate pair above
the BMP), as produced by JavaScript `charCodeAt`. -/
def utf16Units (c : Nat) : List Nat :=
  if c < 65536 then [c]
  else [55296 + (c - 65536) / 1024, 56320 + (c - 65536) % 1024]

/-- The UTF-16 code-unit sequence of a string. -/
def charCodes (s : String) : List Nat :=
  (s.data.map (fun ch => utf16Units ch.toNat)).flatten

/-! ## MD5 (the host digest routine behind `Utilities.computeDigest`) -/

/-- 32-bit left rotation. -/
def rotl32 (x n : Nat) : Nat := ((x <<< n) ||| (x >>> (32 - n))) % 4294967296

/-- The MD5 per-round bitwise mixing function (F, G, H, I by round). -/
def md5Mix (i b c d : Nat) : Nat :=
  if i < 16 then (b &&& c) ||| ((b ^^^ 4294967295) &&& d)
  else if i < 32 then (d &&& b) ||| ((d ^^^ 4294967295) &&& c)
  else if i < 48 then b ^^^ c ^^^ d
  else c ^^^ (b ||| (d ^^^ 4294967295))

/-- The MD5 message-word schedule. -/
def md5MsgIndex (i : Nat) : Nat :=
  if i < 16 then i
  else if i < 32 then (5 * i + 1) % 16
  else if i < 48 then (3 * i + 5) % 16
  else (7 * i) % 16

/-- The 64 MD5 sine-derived additive constants. -/
def md5K : List Nat :=
  [0xd76aa478, 0xe8c7b756, 0x242070db, 0xc1bdceee,
   0xf57c0faf, 0x4787c62a, 0xa8304613, 0xfd469501,
   0x698098d8, 0x8b44f7af, 0xffff5bb1, 0x895cd7be,
   0x6b901122, 0xfd987193, 0xa679438e, 0x49b40821,
   0xf61e2562, 0xc040b340, 0x265e5a51, 0xe9b6c7aa,
   0xd62f105d, 0x02441453, 0xd8a1e681, 0xe7d3fbc8,
   0x21e1cde6, 0xc33707d6, 0xf4d50d87, 0x455a14ed,
   0xa9e3e905, 0xfcefa3f8, 0x676f02d9, 0x8d2a4c8a,
   0xfffa3942, 0x8771f681, 0x6d9d6122, 0xfde5380c,
   0xa4beea44, 0x4bdecfa9, 0xf6bb4b60, 0xbebfbc70,
   0x289b7ec6, 0xeaa127fa, 0xd4ef3085, 0x04881d05,
   0xd9d4d039, 0xe6db99e5, 0x1fa27cf8, 0xc4ac5665,
   0xf4292244, 0x432aff97, 0xab9423a7, 0xfc93a039,
   0x655b59c3, 0x8f0ccc92, 0xffeff47d, 0x85845dd1,
   0x6fa87e4f, 0xfe2ce6e0, 0xa3014314, 0x4e0811a1,
   0xf7537e82, 0xbd3af235, 0x2ad7d2bb, 0xeb86d391]

/-- The 64 MD5 per-round left-rotation amounts. -/
def md5S : List Nat :=
  [7, 12, 17, 22, 7, 12, 17, 22, 7, 12, 17, 22, 7, 12, 17, 22,
   5, 9, 14, 20, 5, 9, 14, 20, 5, 9, 14, 20, 5, 9, 14, 20,
   4, 11, 16, 23, 4, 11, 16, 23, 4, 11, 16, 23, 4, 11, 16, 23,
   6, 10, 15, 21, 6, 10, 15, 21, 6, 10, 15, 21, 6, 10, 15, 21]

/-- One MD5 round: rotate the state quadruple, mixing in message word and
round constant. -/
def md5Round (M : List Nat) (st : Nat × Nat × Nat × Nat) (i : Nat) :
    Nat × Nat × Nat × Nat :=
  let (a, b, c, d) := st
  let f := (md5Mix i b c d + a + md5K.getD i 0 + M.getD (md5MsgIndex i) 0) % 4294967296
  (d, (b + rotl32 f (md5S.getD i 0)) % 4294967296, b, c)

/-- Process one 16-word (64-byte) block: 64 rounds, then add the block
result into the chaining state modulo `2^32`. -/
def md5Block (st : Nat × Nat × Nat × Nat) (M : List Nat) : Nat × Nat × Nat × Nat :=
  let (a, b, c, d) := (List.range 64).foldl (md5Round M) st
  ((st.1 + a) % 4294967296, (st.2.1 + b) % 4294967296,
   (st.2.2.1 + c) % 4294967296, (st.2.2.2 + d) % 4294967296)

/-- The 8-byte little-endian encoding of the bit length of a message of
`n` bytes (the tail of MD5 padding). -/
def md5LenBytes (n : Nat) : List Nat :=
  let b := (n * 8) % 18446744073709551616
  [b % 256, b / 256 % 256, b / 65536 % 256, b / 16777216 % 256,
   b / 4294967296 % 256, b / 1099511627776 % 256,
   b / 281474976710656 % 256, b / 72057594037927936 % 256]

/-- MD5 padding: append `0x80`, zero bytes to 56 mod 64, then the 64-bit
little-endian bit length. -/
def md5Pad (msg : List Nat) : List Nat :=
  msg ++ 128 :: List.replicate ((119 - msg.length % 64) % 64) 0
      ++ md5LenBytes msg.length

/-- Read a 64-byte block as 16 little-endian 32-bit words. -/
def md5Words (block : List Nat) : List Nat :=
  (List.range 16).map (fun j =>
    block.getD (4 * j) 0 + 256 * block.getD (4 * j + 1) 0
      + 65536 * block.getD (4 * j + 2) 0 + 16777216 * block.getD (4 * j + 3) 0)

/-- The 4 little-endian bytes of a 32-bit word. -/
def wordBytes (w : Nat) : List Nat :=
  [w % 256, w / 256 % 256, w / 65536 % 256, w / 16777216 % 256]

/-- The full MD5 digest: 16 unsigned bytes from a byte-list message.
(`Utilities.computeDigest` returns the same 16 bytes, signed; the source
only uses them masked by `& 0x1F` / `& 0x0F` / `& 0xFF`, on which the two
representations agree.) -/
def md5 (msg : List Nat) : List Nat :=
  let padded := md5Pad msg
  let final := (List.range (padded.length / 64)).foldl
    (fun st i => md5Block st (md5Words ((padded.drop (64 * i)).take 64)))
    (0x67452301, 0xefcdab89, 0x98badcfe, 0x10325476)
  wordBytes final.1 ++ wordBytes final.2.1
    ++ wordBytes final.2.2.1 ++ wordBytes final.2.2.2

/-! ## Cell values

A spreadsheet cell value as seen by the scripts: `null`, `undefined`, or a
value whose canonical string form `String(value)` is a `String`.  The
sources test emptiness by `value === null || value === undefined ||
value === ''` before any hashing. -/

/-- A scalar cell value: `null`, `undefined`, or a stringly value carrying
its canonical string form. -/
inductive Scalar where
  | null : Scalar
  | undef : Scalar
  | str (s : String) : Scalar
deriving DecidableEq

/-- The emptiness test `value === null || value === undefined ||
value === ''` used by `getColorFromValue`, `getRandomFormatting` and
`colourRangeByValueRandom`. -/
def isEmptyValue : Scalar → Bool
  | .null => true
  | .undef => true
  | .str s => s = ""

/-- JavaScript `String(value)` on a non-null scalar. -/
def canonicalForm : Scalar → Option String
  | .null => none
  | .undef => none
  | .str s => some s

/-! ## `src/colour-by-value.js` — the discrete (palette) pipeline

The functions are stated verbatim from the source; each takes the digest
routine as a parameter (`*With` version) and is instantiated with `md5`
(the algorithm `Utilities.DigestAlgorithm.MD5` selects).  The
parameterisation makes the empty-value short-circuit ("the value is never
passed through the hash") expressible as independence from the digest. -/

/-- The fixed, order-significant 32-entry pastel background palette of
`getColorFromValue`. -/
def pastelColors : List String :=
  ["#FFB3BA", "#BAFFC9", "#BAE1FF", "#FFFFBA", "#FFB3FF", "#B3FFF9",
   "#FFD1BA", "#E5FFBA", "#BAC3FF", "#FFBAD4", "#BAFFCE", "#BAF0FF",
   "#FFF7BA", "#FFB3F1", "#B3FFE9", "#FFBAC9", "#D4FFBA", "#BAD6FF",
   "#FFE3BA", "#F1B3FF", "#B3FFF1", "#FFBABE", "#C3FFBA", "#BAFFFF",
   "#FFDEBA", "#E1B3FF", "#B3FFD6", "#FFC9BA", "#B3FFBA", "#BAE8FF",
   "#FFCEBA", "#D1B3FF"]

/-- The fixed 16-entry dark-shade text palette of `getContrastColor`. -/
def darkShades : List String :=
  ["#1A1A1A", "#2B2B2B", "#3C3C3C", "#4D4D4D",
   "#262626", "#333333", "#404040", "#595959",
   "#1F1F1F", "#2E2E2E", "#3D3D3D", "#4C4C4C",
   "#232323", "#303030", "#3E3E3E", "#4B4B4B"]

/-- `getColorFromValue`, digest-parameterised: empty/null/undefined short-
circuits to white; otherwise index the pastel palette by the first digest
byte of `String(value)` masked to 5 bits (`hashBytes[0] & 0x1F`). -/
def getColorFromValueWith (digest : List Nat → List Nat) (value : Scalar) : String :=
  if isEmptyValue value then "#FFFFFF"
  else
    match value with
    | .str s =>
        let hashBytes := digest (strBytes s)
        let colorIndex := hashBytes.getD 0 0 &&& 0x1F
        pastelColors.getD colorIndex "#FFFFFF"
    | _ => "#FFFFFF"

/-- `getColorFromValue` as shipped (MD5 digest). -/
def getColorFromValue (value : Scalar) : String := getColorFromValueWith md5 value

/-- `getContrastColor`, digest-parameterised: hash the background colour
hex string and index the dark-shade palette by its first byte masked to
4 bits (`hashBytes[0] & 0x0F`). -/
def getContrastColorWith (digest : List Nat → List Nat) (backgroundColor : String) : String :=
  let hashBytes := digest (strBytes backgroundColor)
  let colorIndex := hashBytes.getD 0 0 &&& 0x0F
  darkShades.getD colorIndex "#1A1A1A"

/-- `getContrastColor` as shipped (MD5 digest). -/
def getContrastColor (backgroundColor : String) : String :=
  getContrastColorWith md5 backgroundColor

/-- The bold/italic/underline triple returned by `getRandomFormatting`. -/
structure Formatting where
  bold : Bool
  italic : Bool
  underline : Bool
deriving DecidableEq

/-- `getRandomFormatting`, digest-parameterised: empty/null/undefined
yields all-false; otherwise bytes 1, 2, 3 of the digest of `String(value)`
(masked `& 0xFF`) thresholded at 102 / 77 / 64. -/
def getRandomFormattingWith (digest : List Nat → List Nat) (value : Scalar) : Formatting :=
  if isEmptyValue value then ⟨false, false, false⟩
  else
    match value with
    | .str s =>
        let hashBytes := digest (strBytes s)
        let boldByte := hashBytes.getD 1 0 &&& 0xFF
        let italicByte := hashBytes.getD 2 0 &&& 0xFF
        let underlineByte := hashBytes.getD 3 0 &&& 0xFF
        ⟨boldByte < 102, italicByte < 77, underlineByte < 64⟩
    | _ => ⟨false, false, false⟩

/-- `getRandomFormatting` as shipped (MD5 digest). -/
def getRandomFormatting (value : Scalar) : Formatting :=
  getRandomFormattingWith md5 value

/-! ## The menu actions `randomColour` and `randomFormat` as event traces

`randomColour` loops over the selected cells; per cell it computes the
background colour, then the text colour, then writes both.
`randomFormat` first runs `randomColour` to completion and only then
loops again, computing and writing the formatting triple per cell (it
also recomputes the background colour for its summary string).
The traces below record, statement by statement, the computation and
host-write events each loop performs; cells are numbered in visit
order. -/

/-- A host write performed via the `Range`/`Cell` API. -/
inductive WriteEv where
  | background (c : String) : WriteEv
  | fontColor (c : String) : WriteEv
  | fontWeight (w : String) : WriteEv
  | fontStyle (w : String) : WriteEv
  | fontLine (w : String) : WriteEv
deriving DecidableEq

/-- A style-bundle computation step (a `const ... = get...(cellValue)`
statement). -/
inductive CompEv where
  | backgroundColor : CompEv
  | textColor : CompEv
  | formatting : CompEv
deriving DecidableEq

/-- One event of the pipeline: a computation or a host write, tagged with
the cell it belongs to. -/
inductive Ev where
  | compute (cell : Nat) (what : CompEv) : Ev
  | write (cell : Nat) (what : WriteEv) : Ev
deriving DecidableEq

/-- The event trace of the `randomColour` loop starting at cell number
`i`: per cell, compute background, compute text colour, write background,
write font colour. -/
def colourTrace : Nat → List Scalar → List Ev
  | _, [] => []
  | i, v :: vs =>
      .compute i .backgroundColor
        :: .compute i .textColor
        :: .write i (.background (getColorFromValue v))
        :: .write i (.fontColor (getContrastColor (getColorFromValue v)))
        :: colourTrace (i + 1) vs

/-- The event trace of the second loop of `randomFormat` starting at cell
number `i`: per cell, compute the formatting triple, write font weight,
style and line, then recompute the background colour for the summary. -/
def formatTrace : Nat → List Scalar → List Ev
  | _, [] => []
  | i, v :: vs =>
      .compute i .formatting
        :: .write i (.fontWeight (if (getRandomFormatting v).bold then "bold" else "normal"))
        :: .write i (.fontStyle (if (getRandomFormatting v).italic then "italic" else "normal"))
        :: .write i (.fontLine (if (getRandomFormatting v).underline then "underline" else "none"))
        :: .compute i .backgroundColor
        :: formatTrace (i + 1) vs

/-- The full event trace of the `randomColour` menu action on the selected
cell values. -/
def randomColourTrace (values : List Scalar) : List Ev := colourTrace 0 values

/-- The full event trace of the `randomFormat` menu action: it first calls
`randomColour`, then formats in a second pass. -/
def randomFormatTrace (values : List Scalar) : List Ev :=
  randomColourTrace values ++ formatTrace 0 values

/-- Scans a trace and checks the compute-before-write discipline: no
style-bundle computation for a cell may occur after a host write to that
same cell (`written` accumulates cells already written to). -/
def computesPrecedeWrites : List Nat → List Ev → Bool
  | _, [] => true
  | written, .write c _ :: rest => computesPrecedeWrites (c :: written) rest
  | written, .compute c _ :: rest =>
      !(written.contains c) && computesPrecedeWrites written rest

/-! ## The continuous pipeline (`generateColourFromValue` and callers)

`generateColourFromValue` converts the value with `value.toString()`, runs
the rolling hash `hash = ((hash << 5) - hash) + charCode; hash = hash &
hash` over its UTF-16 code units, takes `Math.abs`, and renders an
`hsl(...)` string whose components depend on the role. -/

/-- One step of the rolling-hash loop of the source, in JavaScript number
semantics: `hash << 5` wraps the shifted value to signed 32 bits, the
subtraction and addition are exact, and `hash & hash` wraps the result
back to signed 32 bits. -/
def jsHashStep (hash : Int) (char : Nat) : Int :=
  toInt32 (toInt32 (hash * 32) - hash + char)

/-- The rolling hash of the source over a code-unit sequence (before
`Math.abs`). -/
def jsHash (codes : List Nat) : Int := codes.foldl jsHashStep 0

/-- Modelled from the spec: one step of the §4.1 rolling 32-bit polynomial
hash, `hash = hash*31 + charCode` wrapped to signed 32-bit at each step. -/
def specHashStep (hash : Int) (char : Nat) : Int := toInt32 (hash * 31 + char)

/-- Modelled from the spec: the §4.1 rolling 32-bit polynomial hash of a
code-unit sequence (before the absolute value). -/
def specHash (codes : List Nat) : Int := codes.foldl specHashStep 0

/-- `Math.abs` of the rolling hash of `value.toString()` — the
nonnegative hash `generateColourFromValue` derives every component from. -/
def hashAbs (value : String) : Nat := (jsHash (charCodes value)).natAbs

/-- Renders an `hsl(h, s%, l%)` colour string as the template literal in
the source does. -/
def hslString (hue saturation lightness : Nat) : String :=
  "hsl(" ++ toString hue ++ ", " ++ toString saturation ++ "%, "
    ++ toString lightness ++ "%)"

/-- The background hue computed by `generateColourFromValue`:
`hash % 360`. -/
def backgroundHue (value : String) : Nat := hashAbs value % 360

/-- The foreground hue computed by `generateColourFromValue`:
`(hash + 180) % 360`. -/
def foregroundHue (value : String) : Nat := (hashAbs value + 180) % 360

/-- `generateColourFromValue(value, type)` on the already-stringified
value: vivid mid-lightness background, or complementary-hue bimodal-
lightness foreground for any other `type`. -/
def generateColourFromValue (value : String) (type : String) : String :=
  let hash := hashAbs value
  if type = "background" then
    hslString (hash % 360) (70 + hash % 30) (45 + hash % 20)
  else
    hslString ((hash + 180) % 360) (80 + hash % 20)
      (if hash % 2 = 0 then 15 else 85)

/-- The colour pair applied by `colourCellByValueRandom`: for `null` and
`undefined` the call `value.toString()` inside `generateColourFromValue`
throws a `TypeError` (no style is applied); for any string — including
the empty string — both continuous colours are derived and applied. -/
def colourCellByValueRandomColours (value : Scalar) : Except String (String × String) :=
  match value with
  | .null => .error "TypeError"
  | .undef => .error "TypeError"
  | .str s =>
      .ok (generateColourFromValue s "background", generateColourFromValue s "foreground")

/-- The colour pair applied by `colourCellRandom` (the custom-function
wrapper): same derivation, but its `try`/`catch` converts the `TypeError`
on `null`/`undefined` into an error message, applying nothing. -/
def colourCellRandomColours (value : Scalar) : Except String (String × String) :=
  colourCellByValueRandomColours value

/-- The per-cell colour pairs applied by `colourRangeByValueRandom`: it
iterates the range values and calls `colourCellByValueRandom` only on
cells passing `cellValue !== null && cellValue !== undefined &&
cellValue !== ""`. -/
def colourRangeByValueRandomStyles (values : List Scalar) :
    List (Except String (String × String)) :=
  (values.filter (fun v => !isEmptyValue v)).map colourCellByValueRandomColours

/-! ## The digests of the canonical string form, as paired by the invariant of section 3 of the spec -/

/-- The 16-byte MD5 digest of the canonical string form of a value (`none` when
the value has no canonical form, i.e. is `null`/`undefined`). -/
def md5DigestOf (v : Scalar) : Option (List Nat) :=
  (canonicalForm v).map (fun s => md5 (strBytes s))

/-- The 32-bit rolling-hash digest (after `Math.abs`) of the canonical
string form of a value. -/
def rollingHashOf (v : Scalar) : Option Nat := (canonicalForm v).map hashAbs

/-! ## Shared facts -/

theorem mask_lt_32 (x : Nat) : x &&& 0x1F < 32 :=
  Nat.lt_succ_of_le (Nat.and_le_right)

theorem mask_lt_16 (x : Nat) : x &&& 0x0F < 16 :=
  Nat.lt_succ_of_le (Nat.and_le_right)

theorem getD_mem_of_lt {α : Type} {l : List α} {i : Nat} (d : α)
    (h : i < l.length) : l.getD i d ∈ l := by
  rw [List.getD_eq_getElem l d h]
  exact List.getElem_mem h

theorem wordBytes_lt (w : Nat) : ∀ b ∈ wordBytes w, b < 256 := by
  intro b hb
  simp only [wordBytes, List.mem_cons, List.not_mem_nil, or_false] at hb
  rcases hb with h | h | h | h <;> subst h <;>
    exact Nat.mod_lt _ (by norm_num)

theorem md5_byte_lt (msg : List Nat) : ∀ b ∈ md5 msg, b < 256 := by
  intro b hb
  simp only [md5, List.mem_append] at hb
  rcases hb with ((hb | hb) | hb) | hb <;> exact wordBytes_lt _ b hb

theorem getD_lt_256 {l : List Nat} (hl : ∀ b ∈ l, b < 256) (i : Nat) :
    l.getD i 0 < 256 := by
  rcases Nat.lt_or_ge i l.length with h | h
  · rw [List.getD_eq_getElem l 0 h]
    exact hl _ (List.getElem_mem h)
  · rw [List.getD_eq_default l 0 h]
    norm_num

theorem md5_length (msg : List Nat) : (md5 msg).length = 16 := by
  simp [md5, wordBytes]

/-- The two step functions of the rolling hash agree: the `(h << 5) - h`
trick wrapped through `ToInt32` computes `h * 31 + c` wrapped to signed
32 bits. -/
theorem jsHashStep_eq_specHashStep : jsHashStep = specHashStep := by
  funext h c
  unfold jsHashStep specHashStep toInt32
  omega

/-- C5.  The continuous-colour hash loop
`hash = ((hash << 5) - hash) + charCode; hash = hash & hash`, followed by
`Math.abs`, equals the rolling 32-bit polynomial hash of the spec:
`hash = hash*31 + charCode` (wrapped to signed 32-bit at each step, then
taken as absolute value) — in fact the two hashes agree on every
code-unit sequence even before the absolute value. -/
theorem continuous_hash_refines_spec_rolling_hash (codes : List Nat) (s : String) :
    jsHash codes = specHash codes
      ∧ (jsHash (charCodes s)).natAbs = (specHash (charCodes s)).natAbs := by
  have hfold : ∀ cs : List Nat, jsHash cs = specHash cs := by
    intro cs
    unfold jsHash specHash
    rw [jsHashStep_eq_specHashStep]
  exact ⟨hfold codes, by rw [hfold (charCodes s)]⟩

/-- C6.  `generateColourFromValue` gives the background the hue
`abs(h) mod 360` and the foreground the hue `(abs(h) + 180) mod 360`, and
the two are exactly 180 degrees apart for every input:
`foregroundHue = (backgroundHue + 180) mod 360`. -/
theorem foreground_hue_complement (value : String) :
    generateColourFromValue value "background"
        = hslString (backgroundHue value)
            (70 + hashAbs value % 30) (45 + hashAbs value % 20)
      ∧ generateColourFromValue value "foreground"
        = hslString (foregroundHue value)
            (80 + hashAbs value % 20) (if hashAbs value % 2 = 0 then 15 else 85)
      ∧ foregroundHue value = (backgroundHue value + 180) % 360 := by
  refine ⟨?_, ?_, ?_⟩
  · simp [generateColourFromValue, backgroundHue]
  · simp [generateColourFromValue, foregroundHue]
  · unfold foregroundHue backgroundHue
    rw [Nat.mod_add_mod]

/-- C1.  For every non-empty string value, `getColorFromValue` returns
exactly the pastel-palette entry selected by the first byte of the
16-byte MD5 digest of the canonical string form, masked to 5 bits
(`hashBytes[0] & 0x1F`, a 0–31 index); the index is always within the
32-entry palette and the result is a palette entry. -/
theorem discrete_background_is_masked_first_md5_byte (s : String) (h : s ≠ "") :
    getColorFromValue (.str s)
        = pastelColors.getD ((md5 (strBytes s)).getD 0 0 &&& 0x1F) "#FFFFFF"
      ∧ (md5 (strBytes s)).length = 16
      ∧ (md5 (strBytes s)).getD 0 0 &&& 0x1F < pastelColors.length
      ∧ getColorFromValue (.str s) ∈ pastelColors := by
  have hidx : (md5 (strBytes s)).getD 0 0 &&& 0x1F < pastelColors.length := by
    have hlen : pastelColors.length = 32 := rfl
    rw [hlen]; exact mask_lt_32 _
  have hempty : isEmptyValue (.str s) = false := by simp [isEmptyValue, h]
  have hval : getColorFromValue (.str s)
      = pastelColors.getD ((md5 (strBytes s)).getD 0 0 &&& 0x1F) "#FFFFFF" := by
    simp [getColorFromValue, getColorFromValueWith, hempty]
  exact ⟨hval, md5_length _, hidx, hval ▸ getD_mem_of_lt _ hidx⟩

theorem discrete_background_witness :
    ("Apple" : String) ≠ ""
      ∧ (getColorFromValue (.str "Apple")
            = pastelColors.getD ((md5 (strBytes "Apple")).getD 0 0 &&& 0x1F) "#FFFFFF"
          ∧ (md5 (strBytes "Apple")).length = 16
          ∧ (md5 (strBytes "Apple")).getD 0 0 &&& 0x1F < pastelColors.length
          ∧ getColorFromValue (.str "Apple") ∈ pastelColors)
      ∧ getColorFromValue (.str "Apple") = "#D1B3FF" :=
  ⟨by decide, discrete_background_is_masked_first_md5_byte "Apple" (by decide),
   by decide⟩

/-- C2.  For every non-empty value, the discrete text colour re-hashes the
hex string of the resulting background colour (not the original value) with the
same MD5 digest, masks the first byte to 4 bits (`& 0x0F`), and indexes
the fixed 16-entry dark-shade palette. -/
theorem foreground_rehashes_background_hex (s : String) (_h : s ≠ "") :
    getContrastColor (getColorFromValue (.str s))
        = darkShades.getD
            ((md5 (strBytes (getColorFromValue (.str s)))).getD 0 0 &&& 0x0F) "#1A1A1A"
      ∧ (md5 (strBytes (getColorFromValue (.str s)))).getD 0 0 &&& 0x0F
          < darkShades.length
      ∧ getContrastColor (getColorFromValue (.str s)) ∈ darkShades := by
  have hidx : (md5 (strBytes (getColorFromValue (.str s)))).getD 0 0 &&& 0x0F
      < darkShades.length := by
    have hlen : darkShades.length = 16 := rfl
    rw [hlen]; exact mask_lt_16 _
  have hval : getContrastColor (getColorFromValue (.str s))
      = darkShades.getD
          ((md5 (strBytes (getColorFromValue (.str s)))).getD 0 0 &&& 0x0F) "#1A1A1A" := rfl
  exact ⟨hval, hidx, hval ▸ getD_mem_of_lt _ hidx⟩

theorem foreground_rehash_witness :
    ("Apple" : String) ≠ ""
      ∧ (getContrastColor (getColorFromValue (.str "Apple"))
            = darkShades.getD
                ((md5 (strBytes (getColorFromValue (.str "Apple")))).getD 0 0 &&& 0x0F)
                "#1A1A1A"
          ∧ (md5 (strBytes (getColorFromValue (.str "Apple")))).getD 0 0 &&& 0x0F
              < darkShades.length
          ∧ getContrastColor (getColorFromValue (.str "Apple")) ∈ darkShades)
      ∧ getContrastColor (getColorFromValue (.str "Apple")) = "#1F1F1F" :=
  ⟨by decide, foreground_rehashes_background_hex "Apple" (by decide), by decide⟩

/-- C4.  For every non-empty string value, the formatting triple comes
from three distinct MD5-digest bytes at fixed offsets 1 (bold), 2
(italic) and 3 (underline), each a byte in the range 0–255, thresholded
at `< 102`, `< 77` and `< 64` respectively. -/
theorem formatting_thresholds_from_md5_offsets (s : String) (h : s ≠ "") :
    getRandomFormatting (.str s)
        = { bold := (md5 (strBytes s)).getD 1 0 &&& 0xFF < 102,
            italic := (md5 (strBytes s)).getD 2 0 &&& 0xFF < 77,
            underline := (md5 (strBytes s)).getD 3 0 &&& 0xFF < 64 }
      ∧ (md5 (strBytes s)).getD 1 0 < 256
      ∧ (md5 (strBytes s)).getD 2 0 < 256
      ∧ (md5 (strBytes s)).getD 3 0 < 256 := by
  have hempty : isEmptyValue (.str s) = false := by simp [isEmptyValue, h]
  refine ⟨?_, getD_lt_256 (md5_byte_lt _) 1,
    getD_lt_256 (md5_byte_lt _) 2, getD_lt_256 (md5_byte_lt _) 3⟩
  simp [getRandomFormatting, getRandomFormattingWith, hempty]

theorem formatting_thresholds_witness :
    ("Error" : String) ≠ ""
      ∧ (getRandomFormatting (.str "Error")
            = { bold := (md5 (strBytes "Error")).getD 1 0 &&& 0xFF < 102,
                italic := (md5 (strBytes "Error")).getD 2 0 &&& 0xFF < 77,
                underline := (md5 (strBytes "Error")).getD 3 0 &&& 0xFF < 64 }
          ∧ (md5 (strBytes "Error")).getD 1 0 < 256
          ∧ (md5 (strBytes "Error")).getD 2 0 < 256
          ∧ (md5 (strBytes "Error")).getD 3 0 < 256)
      ∧ getRandomFormatting (.str "Error") = ⟨true, true, false⟩ :=
  ⟨by decide, formatting_thresholds_from_md5_offsets "Error" (by decide), by decide⟩

/-- C10.  `getColorFromValue` returns `#FFFFFF` exactly on `null`,
`undefined` and the empty string; every other value yields one of the 32
pastel palette entries, and `#FFFFFF` is not among them, so a white
background characterises an empty cell. -/
theorem white_background_iff_empty :
    (∀ v : Scalar, getColorFromValue v = "#FFFFFF" ↔ isEmptyValue v = true)
      ∧ (∀ v : Scalar, isEmptyValue v = false → getColorFromValue v ∈ pastelColors)
      ∧ "#FFFFFF" ∉ pastelColors := by
  have hnotin : "#FFFFFF" ∉ pastelColors := by decide
  have hmem : ∀ v : Scalar, isEmptyValue v = false →
      getColorFromValue v ∈ pastelColors := by
    intro v hv
    cases v with
    | null => simp [isEmptyValue] at hv
    | undef => simp [isEmptyValue] at hv
    | str s =>
        have hidx : (md5 (strBytes s)).getD 0 0 &&& 0x1F < pastelColors.length := by
          have hlen : pastelColors.length = 32 := rfl
          rw [hlen]; exact mask_lt_32 _
        have hval : getColorFromValue (.str s)
            = pastelColors.getD ((md5 (strBytes s)).getD 0 0 &&& 0x1F) "#FFFFFF" := by
          simp [getColorFromValue, getColorFromValueWith, hv]
        exact hval ▸ getD_mem_of_lt _ hidx
  refine ⟨?_, hmem, hnotin⟩
  intro v
  constructor
  · intro heq
    cases hv : isEmptyValue v with
    | true => rfl
    | false => exact absurd (heq ▸ hmem v hv) hnotin
  · intro hv
    simp [getColorFromValue, getColorFromValueWith, hv]

theorem white_background_witness :
    isEmptyValue (.str "Banana") = false
      ∧ getColorFromValue (.str "Banana") ∈ pastelColors
      ∧ (getColorFromValue .null = "#FFFFFF" ↔ isEmptyValue .null = true) :=
  ⟨by decide, white_background_iff_empty.2.1 (.str "Banana") (by decide),
   white_background_iff_empty.1 .null⟩

theorem continuous_hash_refinement_witness :
    jsHash [65, 97] = specHash [65, 97]
      ∧ (jsHash (charCodes "Apple")).natAbs = (specHash (charCodes "Apple")).natAbs :=
  continuous_hash_refines_spec_rolling_hash [65, 97] "Apple"

theorem foreground_hue_complement_witness :
    foregroundHue "X" = (backgroundHue "X" + 180) % 360 :=
  (foreground_hue_complement "X").2.2

/-- C3 counterexample.  On the empty string, `randomColour` writes the
white background but then also writes the font colour
`getContrastColor("#FFFFFF") = "#404040"` — a dark-shade palette entry,
not the default (unstyled) text colour. -/
theorem empty_value_gets_dark_font_colour_write :
    randomColourTrace [Scalar.str ""]
        = [.compute 0 .backgroundColor, .compute 0 .textColor,
           .write 0 (.background "#FFFFFF"), .write 0 (.fontColor "#404040")]
      ∧ "#404040" ∈ darkShades := by decide

/-- C3 (amended).  For every empty, null or undefined value and any digest
routine whatsoever, `getColorFromValue` returns `#FFFFFF` and
`getRandomFormatting` returns all-false without hashing the value (the
result does not depend on the digest); but the text colour applied by
`randomColour` to such a cell is not the default — it is the fixed dark
shade `#404040` obtained by hashing the background string `"#FFFFFF"`. -/
theorem empty_value_shortcircuit_amended (digest : List Nat → List Nat)
    (v : Scalar) (h : isEmptyValue v = true) :
    getColorFromValueWith digest v = "#FFFFFF"
      ∧ getRandomFormattingWith digest v = ⟨false, false, false⟩
      ∧ getContrastColor (getColorFromValueWith digest v) = "#404040" := by
  have hbg : getColorFromValueWith digest v = "#FFFFFF" := by
    simp [getColorFromValueWith, h]
  have hfmt : getRandomFormattingWith digest v = ⟨false, false, false⟩ := by
    simp [getRandomFormattingWith, h]
  refine ⟨hbg, hfmt, ?_⟩
  rw [hbg]
  decide

theorem empty_value_shortcircuit_witness :
    isEmptyValue Scalar.null = true
      ∧ (getColorFromValueWith md5 Scalar.null = "#FFFFFF"
        ∧ getRandomFormattingWith md5 Scalar.null = ⟨false, false, false⟩
        ∧ getContrastColor (getColorFromValueWith md5 Scalar.null) = "#404040") :=
  ⟨rfl, empty_value_shortcircuit_amended md5 .null rfl⟩

/-- C7 counterexample.  The caller `colourCellByValueRandom` (and the
wrapper `colourCellRandom`) applies no empty-value bypass: invoked on the
empty string it derives and applies the continuous style
`hsl(0, 70%, 45%)` / `hsl(180, 80%, 15%)`. -/
theorem empty_string_styled_by_continuous_caller :
    isEmptyValue (.str "") = true
      ∧ colourCellByValueRandomColours (.str "")
          = .ok ("hsl(0, 70%, 45%)", "hsl(180, 80%, 15%)")
      ∧ colourCellRandomColours (.str "")
          = .ok ("hsl(0, 70%, 45%)", "hsl(180, 80%, 15%)") :=
  ⟨by decide, rfl, rfl⟩

/-- C7 (amended).  Only `colourRangeByValueRandom` applies the empty/null
bypass (it styles no cell whose value is null, undefined or empty);
`colourCellByValueRandom` and `colourCellRandom` do not — on the empty
string they derive and apply a continuous style, and on null/undefined
they throw a `TypeError` instead of bypassing. -/
theorem range_caller_bypasses_empty_only :
    (∀ values : List Scalar, (∀ v ∈ values, isEmptyValue v = true) →
        colourRangeByValueRandomStyles values = [])
      ∧ colourCellByValueRandomColours (.str "")
          = .ok ("hsl(0, 70%, 45%)", "hsl(180, 80%, 15%)")
      ∧ colourCellByValueRandomColours .null = .error "TypeError"
      ∧ colourCellByValueRandomColours .undef = .error "TypeError" := by
  refine ⟨?_, rfl, rfl, rfl⟩
  intro values hall
  unfold colourRangeByValueRandomStyles
  have hfil : values.filter (fun v => !isEmptyValue v) = [] := by
    rw [List.filter_eq_nil_iff]
    intro a ha
    simp [hall a ha]
  rw [hfil]
  rfl

theorem range_caller_bypass_witness :
    colourRangeByValueRandomStyles [Scalar.null, Scalar.undef, Scalar.str ""] = [] :=
  range_caller_bypasses_empty_only.1 [.null, .undef, .str ""] (by decide)

/-- Helper for C8: within the `randomColour` loop the compute-before-write
discipline holds — the two colours of each cell are computed before either
is written, and writes to earlier cells never precede the computations of
a later cell, because cell numbers increase. -/
theorem colourTrace_check (vs : List Scalar) :
    ∀ (k : Nat) (written : List Nat), (∀ c ∈ written, c < k) →
      computesPrecedeWrites written (colourTrace k vs) = true := by
  induction vs with
  | nil => intro k written _; rfl
  | cons v vs ih =>
      intro k written hw
      have hk : written.contains k = false := by
        cases hcb : written.contains k with
        | false => rfl
        | true =>
            have hkmem : k ∈ written := List.elem_iff.mp hcb
            exact absurd (hw k hkmem) (Nat.lt_irrefl k)
      simp only [colourTrace, computesPrecedeWrites, hk, Bool.not_false, Bool.true_and]
      apply ih
      intro c hc
      simp only [List.mem_cons] at hc
      rcases hc with rfl | rfl | hc
      · exact Nat.lt_succ_self c
      · exact Nat.lt_succ_self c
      · exact Nat.lt_succ_of_lt (hw c hc)

/-- C8 (amended).  `randomColour` computes the background and text colour of each cell
before writing either; but in the colour-plus-formatting pipeline
`randomFormat` the bold/italic/underline triple is computed only in a
second pass, after the colours of the cell have already been written by the
embedded `randomColour` run. -/
theorem colour_atomic_format_second_pass :
    (∀ values : List Scalar,
        computesPrecedeWrites [] (randomColourTrace values) = true)
      ∧ computesPrecedeWrites [] (randomFormatTrace [Scalar.str "B"]) = false := by
  refine ⟨?_, by decide⟩
  intro values
  exact colourTrace_check values 0 [] (fun c hc => absurd hc (List.not_mem_nil c))

theorem colour_atomic_witness :
    computesPrecedeWrites []
      (randomColourTrace [Scalar.str "A", Scalar.str "B", Scalar.null]) = true :=
  colour_atomic_format_second_pass.1 [.str "A", .str "B", .null]

/-- C8 counterexample.  On a one-cell selection holding `"A"`, the
`randomFormat` trace computes the formatting triple only after the background and font
colour of the cell have already been written, so not all style
attributes of the style bundle of that cell are computed before the first
write. -/
theorem format_computed_after_colour_writes :
    computesPrecedeWrites [] (randomFormatTrace [Scalar.str "A"]) = false := by decide

/-- C9 counterexample.  The 32-bit rolling hash sends the distinct
canonical forms `"Aa"` and `"BB"` to the same digest 2112, so equal
digests do not imply equal canonical forms. -/
theorem rolling_hash_collision :
    rollingHashOf (.str "Aa") = rollingHashOf (.str "BB")
      ∧ canonicalForm (.str "Aa") ≠ canonicalForm (.str "BB")
      ∧ rollingHashOf (.str "Aa") = some 2112 := by decide

/-- C9 (amended).  Equal canonical forms always give equal digests (both
the MD5 digest and the rolling hash are functions of the canonical string
alone), but the converse fails: the rolling hash collides on the distinct
canonical forms `"Aa"` and `"BB"`. -/
theorem digest_determinism_not_injective :
    (∀ v1 v2 : Scalar, canonicalForm v1 = canonicalForm v2 →
        md5DigestOf v1 = md5DigestOf v2 ∧ rollingHashOf v1 = rollingHashOf v2)
      ∧ rollingHashOf (.str "Aa") = rollingHashOf (.str "BB")
      ∧ canonicalForm (.str "Aa") ≠ canonicalForm (.str "BB") := by
  refine ⟨?_, by decide, by decide⟩
  intro v1 v2 h
  unfold md5DigestOf rollingHashOf
  rw [h]
  exact ⟨rfl, rfl⟩

theorem digest_determinism_witness :
    canonicalForm (.str "Apple") = canonicalForm (.str "Apple")
      ∧ (md5DigestOf (.str "Apple") = md5DigestOf (.str "Apple")
        ∧ rollingHashOf (.str "Apple") = rollingHashOf (.str "Apple")) :=
  ⟨rfl, digest_determinism_not_injective.1 (.str "Apple") (.str "Apple") rfl⟩
